import Mathlib

/-!
Verification of the image-compositing core of the steam-info plugin
(`draw.py`): roster classification and layout (`draw_friends_status`),
palette extraction (`get_brightest_and_darkest_color`), the progress bar
(`create_progress_bar`), gradients (`create_vertical_gradient_rect`,
`create_gradient_image`), the mosaic recolorer (`recolor_image`) and the
biography word-wrap of `draw_player_status`.  Each claim theorem settles one
specification claim against a shallow embedding of the source function.
-/

/-! Roster data model and classification (`draw_friends_status`). -/

/-- One simplified person-status record as consumed by `draw_friends_status`:
the dictionary keys `name`, `status`, `personastate` and `nickname`.  The
avatar image plays no role in classification, ordering or layout. -/
structure FriendRec where
  name : String
  status : String
  personastate : Nat
  nickname : Option String
deriving DecidableEq, Repr

/-- Membership condition of the `gaming_data` list comprehension
(draw.py lines 242-244). -/
def gamingPred (d : FriendRec) : Bool :=
  (d.personastate == 1 && d.status != "在线") ||
  (d.personastate == 3 && d.status != "离开") ||
  (d.personastate == 4 && d.status != "在线")

/-- Membership condition of the `online_data` list comprehension
(draw.py lines 248-251). -/
def onlinePred (d : FriendRec) : Bool :=
  (d.personastate == 1 && d.status == "在线") ||
  (d.personastate == 3 && d.status == "离开") ||
  (d.personastate == 4 && d.status == "在线") ||
  (d.personastate == 2 || d.personastate == 5 || d.personastate == 6)

/-- Membership condition of the `offline_data` list comprehension
(draw.py line 256). -/
def offlinePred (d : FriendRec) : Bool :=
  d.personastate == 0

/-- The generic status label the code compares against for each persona
state: `"离开"` (away) for state 3, `"在线"` (online) for states 1 and 4. -/
def genericLabel (ps : Nat) : String :=
  if ps == 3 then "离开" else "在线"

/-- Key order of the in-place `data.sort(key=lambda x: x["personastate"])`
that `draw_friends_status` runs on the caller's list (line 237). -/
def psLe (a b : FriendRec) : Prop :=
  a.personastate ≤ b.personastate

instance : DecidableRel psLe := fun _a _b => Nat.decLe _ _

instance : IsTotal FriendRec psLe := ⟨fun _a _b => Nat.le_total _ _⟩

instance : IsTrans FriendRec psLe := ⟨fun _ _ _ h h' => Nat.le_trans h h'⟩

/-- State of the caller's list after `draw_friends_status` sorted it in
place.  Python's `list.sort` is stable; insertion sort with a total preorder
relation is the same stable sort. -/
def rosterPostData (data : List FriendRec) : List FriendRec :=
  List.insertionSort psLe data

/-- The `gaming_data` list comprehension applied to the (already sorted)
input list. -/
def gaming_data (data : List FriendRec) : List FriendRec :=
  (rosterPostData data).filter gamingPred

/-- The `online_data` list comprehension applied to the (already sorted)
input list. -/
def online_data (data : List FriendRec) : List FriendRec :=
  (rosterPostData data).filter onlinePred

/-- The `offline_data` list comprehension applied to the (already sorted)
input list. -/
def offline_data (data : List FriendRec) : List FriendRec :=
  (rosterPostData data).filter offlinePred

/-- Sort key of
`online_data.sort(key=lambda x: (7 if x["personastate"] == 3 else x["personastate"]))`
(line 252): Away(3) is pushed to key 7. -/
def onlineKey (d : FriendRec) : Nat :=
  if d.personastate == 3 then 7 else d.personastate

/-- Order relation induced by `onlineKey`. -/
def onlineKeyLe (a b : FriendRec) : Prop :=
  onlineKey a ≤ onlineKey b

instance : DecidableRel onlineKeyLe := fun _a _b => Nat.decLe _ _

instance : IsTotal FriendRec onlineKeyLe := ⟨fun _a _b => Nat.le_total _ _⟩

instance : IsTrans FriendRec onlineKeyLe := ⟨fun _ _ _ h h' => Nat.le_trans h h'⟩

/-- The online section's member list after its sort. -/
def online_data_sorted (data : List FriendRec) : List FriendRec :=
  List.insertionSort onlineKeyLe (online_data data)

/-- Lexical order on status text used by
`data.sort(key=lambda x: x["status"])` in `draw_gaming_friends_status`. -/
def statusLe (a b : FriendRec) : Prop :=
  a.status ≤ b.status

instance : DecidableRel statusLe := fun a b => inferInstanceAs (Decidable (a.status ≤ b.status))

instance : IsTotal FriendRec statusLe := ⟨fun a b => le_total a.status b.status⟩

instance : IsTrans FriendRec statusLe := ⟨fun _ _ _ h h' => le_trans h h'⟩

/-- The gaming section's member list after `draw_gaming_friends_status`
sorted it by status text. -/
def gaming_data_sorted (data : List FriendRec) : List FriendRec :=
  List.insertionSort statusLe (gaming_data data)

/-- Roster section kinds, in the order the code appends them. -/
inductive SectionKind where
  | gaming
  | online
  | offline
deriving DecidableEq, Repr

/-- Height of one section sub-image as built by
`draw_gaming_friends_status` / `draw_online_friends_status` /
`draw_offline_friends_status`: `64 + (MEMBER_AVATAR_SIZE + 16) * len(data) + 16`
with `MEMBER_AVATAR_SIZE = 50`. -/
def sectionImgHeight (members : List FriendRec) : Nat :=
  64 + (50 + 16) * members.length + 16

/-- The `status_images` list built by `draw_friends_status`: each non-empty
section, with its member list, appended in the order gaming, online,
offline. -/
def rosterStatusImages (data : List FriendRec) : List (SectionKind × List FriendRec) :=
  (if gaming_data data ≠ [] then [(SectionKind.gaming, gaming_data_sorted data)] else []) ++
  (if online_data data ≠ [] then [(SectionKind.online, online_data_sorted data)] else []) ++
  (if offline_data data ≠ [] then [(SectionKind.offline, offline_data data)] else [])

/-- Canvas height accumulator of `draw_friends_status`: it starts at the
parent header height (120) plus the search bar height (50) and adds the
height of each appended section image. -/
def rosterCanvasHeight (data : List FriendRec) : Nat :=
  (rosterStatusImages data).foldl (fun h s => h + sectionImgHeight s.2) (120 + 50)

/-- Number of separator lines drawn by the paste loop of
`draw_friends_status`: one for every index `i` with
`i != len(status_images) - 1`. -/
def rosterSeparatorCount (data : List FriendRec) : Nat :=
  ((List.range (rosterStatusImages data).length).filter
    (fun i => i != (rosterStatusImages data).length - 1)).length

/-! Biography word-wrap of `draw_player_status` (draw.py lines 410-422). -/

/-- Cumulative measured width of a line's characters under the injected
glyph-measuring function (`ImageFont.truetype(...).getlength`). -/
def sumWidth (widthOf : Char → ℚ) (l : List Char) : ℚ :=
  (l.map widthOf).sum

/-- Loop of the biography word-wrap: `line` and `line_width` accumulate
characters; a line is emitted when the accumulated width exceeds 640, at the
last input character, or on a newline; each emission advances `offset` by 25
and the loop breaks as soon as `offset >= 25 * 4`, i.e. after the fourth
emitted line. -/
def wrapEmit (widthOf : Char → ℚ) :
    List Char → List Char → ℚ → Nat → List (List Char)
  | [], _, _, _ => []
  | c :: rest, line, lineWidth, emitted =>
    let line' := line ++ [c]
    let lineWidth' := lineWidth + widthOf c
    if 640 < lineWidth' ∨ rest = [] ∨ c = '\n' then
      if 4 ≤ emitted + 1 then [line']
      else line' :: wrapEmit widthOf rest [] 0 (emitted + 1)
    else
      wrapEmit widthOf rest line' lineWidth' emitted

/-- The list of biography lines `draw_player_status` draws. -/
def wrapLines (widthOf : Char → ℚ) (desc : List Char) : List (List Char) :=
  wrapEmit widthOf desc [] 0 0

/-! Palette extraction (`get_brightest_and_darkest_color`). -/

/-- One pixel of the image in PIL's 8-bit HSV space. -/
structure HSV where
  h : Nat
  s : Nat
  v : Nat
deriving DecidableEq, Repr

/-- The vivid-pixel selection `img_hsv[img_hsv[..., 1] > saturation_threshold]`
applied to the image's pixel list. -/
def vividPixels (pixels : List HSV) (thr : Int) : List HSV :=
  pixels.filter (fun p => decide (thr < (p.s : Int)))

/-- First pixel of maximal value channel, as `np.argmax` over the value
plane selects (first occurrence of the maximum). -/
def argmaxV : List HSV → Option HSV
  | [] => none
  | p :: rest => some (rest.foldl (fun best q => if best.v < q.v then q else best) p)

/-- First pixel of minimal value channel, as `np.argmin` over the value
plane selects (first occurrence of the minimum). -/
def argminV : List HSV → Option HSV
  | [] => none
  | p :: rest => some (rest.foldl (fun best q => if q.v < best.v then q else best) p)

/-- Brightest/darkest pixel selection among the vivid pixels, including the
hue-difference re-selection of the darkest pixel (draw.py lines 334-340):
`brightest` is the `np.argmax` of the value plane, `darkest` the `np.argmin`,
and when their hues are closer than the threshold the darkest is re-selected
among the vivid pixels of a different hue if any exist.  On an empty list
(impossible at the call site, which guarantees at least 10 vivid pixels)
`np.argmax` raises, modelled as `none`. -/
def selectPair (hueDiffThr : Int) : List HSV → Option (HSV × HSV)
  | [] => none
  | p :: rest =>
    let b := rest.foldl (fun best q => if best.v < q.v then q else best) p
    let d := rest.foldl (fun best q => if q.v < best.v then q else best) p
    let chosenDark :=
      if |(b.h : Int) - (d.h : Int)| < hueDiffThr then
        match argminV ((p :: rest).filter (fun q => q.h != b.h)) with
        | some d2 => d2
        | none => d
      else d
    some (b, chosenDark)

/-- Fueled embedding of the recursion of `get_brightest_and_darkest_color`:
if fewer than 10 vivid pixels qualify it retries with
`saturation_threshold - 10` (and the default hue threshold 30); `none` means
the call depth was exhausted without returning. -/
def get_brightest_and_darkest_color
    (pixels : List HSV) (thr hueThr : Int) : Nat → Option (HSV × HSV)
  | 0 => none
  | fuel + 1 =>
    if (vividPixels pixels thr).length < 10 then
      get_brightest_and_darkest_color pixels (thr - 10) 30 fuel
    else
      selectPair hueThr (vividPixels pixels thr)

/-- The recursion returns within some call depth. -/
def BDCTerminates (pixels : List HSV) (thr hueThr : Int) : Prop :=
  ∃ fuel, (get_brightest_and_darkest_color pixels thr hueThr fuel).isSome

/-! Achievement strip of `draw_game_info` (draw.py lines 371-382). -/

/-- Outcome of the achievement-strip branch of `draw_game_info`: the strip is
omitted (and the block cropped to height 110) when either count is `None`;
otherwise the progress `completed / total` is computed, and in Python a zero
total raises `ZeroDivisionError`. -/
inductive AchStripResult where
  | omitted
  | strip (progress : ℚ)
  | zeroDivisionError
deriving DecidableEq, Repr

/-- Shallow embedding of how `draw_game_info` derives the progress handed to
`create_progress_bar`. -/
def draw_game_info_strip (completed total : Option Int) : AchStripResult :=
  match completed, total with
  | some c, some t =>
    if t = 0 then .zeroDivisionError else .strip ((c : ℚ) / (t : ℚ))
  | _, _ => .omitted

/-! Gradients and the progress bar. -/

/-- Truncation toward zero performed by Python's `int()` on a float. -/
def pyInt (q : ℚ) : Int :=
  if q < 0 then ⌈q⌉ else ⌊q⌋

/-- Dimension-level result of `create_vertical_gradient_rect`: a non-positive
width or height is answered with a 1x1 transparent placeholder. -/
inductive GradRect where
  | transparent1x1
  | rect (width height : Int)
deriving DecidableEq, Repr

/-- The guard and dimensions of `create_vertical_gradient_rect`
(draw.py lines 315-323). -/
def create_vertical_gradient_rect_dims (width height : Int) : GradRect :=
  if width ≤ 0 ∨ height ≤ 0 then .transparent1x1 else .rect width height

/-- Width of the fill rectangle requested by `create_progress_bar`:
`int(width * progress) - 6` (line 475).  No clamping of `progress` occurs
anywhere in the function. -/
def progressBarFillWidth (progress : ℚ) (width : Int) : Int :=
  pyInt ((width : ℚ) * progress) - 6

/-- The fill image `create_progress_bar` builds:
`create_vertical_gradient_rect(int(width * progress) - 6, height - 4, ...)`. -/
def create_progress_bar_fill (progress : ℚ) (width height : Int) : GradRect :=
  create_vertical_gradient_rect_dims (progressBarFillWidth progress width) (height - 4)

/-- Dimension-level result of `create_gradient_image` (draw.py lines
308-313): `np.linspace` rejects a negative sample count, and a zero-width or
non-positive-height array cannot be tiled into an image, so every
non-positive dimension raises an exception; there is no 1x1 fallback. -/
def create_gradient_image_dims (w h : Int) : Option (Int × Int) :=
  if w ≤ 0 ∨ h ≤ 0 then none else some (w, h)

/-- Value of `np.linspace(a, b, num)` at index `i`, per channel. -/
def linspaceAt (a b : ℚ) (num i : Int) : ℚ :=
  if num = 1 then a else a + (b - a) * i / ((num : ℚ) - 1)

/-- Channel value of pixel `(x, y)` of `create_vertical_gradient_rect`: the
linspace runs over the rows and is tiled across the columns. -/
def verticalGradientPixel (a b : ℚ) (_width height _x y : Int) : ℚ :=
  linspaceAt a b height y

/-- Channel value of pixel `(x, y)` of `create_gradient_image`: the linspace
runs over `size[0]` (the columns) and is tiled down the rows. -/
def horizontalGradientPixel (a b : ℚ) (width _height x _y : Int) : ℚ :=
  linspaceAt a b width x

/-! Mosaic recolorer (`get_average_color`, `split_image`, `recolor_image`). -/

/-- Pixel-grid image: dimensions plus an RGB pixel function. -/
structure Img where
  width : Nat
  height : Nat
  pix : Nat → Nat → Nat × Nat × Nat

/-- Rectangular crop `image.crop((left, top, left + w, top + h))`. -/
def Img.crop (img : Img) (left top w h : Nat) : Img :=
  ⟨w, h, fun x y => img.pix (left + x) (top + y)⟩

/-- Sum of one channel over the whole image. -/
def channelSum (img : Img) (f : Nat × Nat × Nat → Nat) : Nat :=
  ((List.range img.height).map (fun y =>
    ((List.range img.width).map (fun x => f (img.pix x y))).sum)).sum

/-- Embedding of `get_average_color`: per-channel mean truncated to an
integer (`np.mean` followed by `astype(int)`; modelled as the exact rational
mean; on an empty image numpy produces NaN, here mapped to 0). -/
def get_average_color (img : Img) : Nat × Nat × Nat :=
  (channelSum img (fun c => c.1) / (img.width * img.height),
   channelSum img (fun c => c.2.1) / (img.width * img.height),
   channelSum img (fun c => c.2.2) / (img.width * img.height))

/-- Geometry and color of one pasted blob of `recolor_image`: the
`piece_width x piece_height` RGBA canvas holding the filled ellipse
`draw.ellipse((0, 0, piece_width, piece_height))` is the ellipse's tight
bounding box, and it is pasted at `(x - radius, y - radius)`. -/
structure Blob where
  left : Int
  top : Int
  width : Int
  height : Int
  color : Nat × Nat × Nat
deriving DecidableEq, Repr

/-- Output of `recolor_image` at the level of the paste commands it issues. -/
structure RecolorResult where
  width : Nat
  height : Nat
  background : Nat × Nat × Nat
  blobs : List Blob

/-- Shallow embedding of `recolor_image` (draw.py lines 289-306): a canvas of
the input's size pre-filled with the global average color, and one ellipse
blob per tile of the `split_image` grid; the two final size-preserving
filters (SMOOTH and a Gaussian blur) change none of these quantities. -/
def recolor_image (img : Img) (rows cols : Nat) : RecolorResult :=
  let pw := img.width / cols
  let ph := img.height / rows
  let radius := min pw ph / 2
  { width := img.width
    height := img.height
    background := get_average_color img
    blobs := (List.range (rows * cols)).map (fun i =>
      let r := i / cols
      let c := i % cols
      let x : Int := ((c * pw : Nat) : Int) + ((pw / 2 : Nat) : Int)
      let y : Int := ((r * ph : Nat) : Int) + ((ph / 2 : Nat) : Int)
      { left := x - (radius : Int), top := y - (radius : Int),
        width := (pw : Int), height := (ph : Int),
        color := get_average_color (img.crop (c * pw) (r * ph) pw ph) }) }

/-- Rational-coordinate bounding box of a painted blob, for comparison with
the specification's description. -/
structure BlobQ where
  left : ℚ
  top : ℚ
  width : ℚ
  height : ℚ
  color : Nat × Nat × Nat
deriving DecidableEq, Repr

/-- Bounding box of a concrete blob in rational coordinates. -/
def Blob.toQ (b : Blob) : BlobQ :=
  ⟨(b.left : ℚ), (b.top : ℚ), (b.width : ℚ), (b.height : ℚ), b.color⟩

/-- Modelled from the spec (refinement side of the recolorer claim): for each
tile, a filled circle of the tile's average color whose diameter equals the
tile's shorter side, centered in the tile — given by its exact bounding
box. -/
def specCircleBlobs (img : Img) (rows cols : Nat) : List BlobQ :=
  let pw := img.width / cols
  let ph := img.height / rows
  let d : ℚ := ((min pw ph : Nat) : ℚ)
  (List.range (rows * cols)).map (fun i =>
    let r := i / cols
    let c := i % cols
    let cx : ℚ := ((c * pw : Nat) : ℚ) + (pw : ℚ) / 2
    let cy : ℚ := ((r * ph : Nat) : ℚ) + (ph : ℚ) / 2
    ⟨cx - d / 2, cy - d / 2, d, d,
     get_average_color (img.crop (c * pw) (r * ph) pw ph)⟩)

/-! Theorems.  Helper lemmas come first, then one theorem (with witness or
counterexample where applicable) per specification claim. -/

/-- A rational that is at most zero truncates (toward zero) to a
non-positive integer. -/
theorem pyInt_nonpos {q : ℚ} (h : q ≤ 0) : pyInt q ≤ 0 := by
  unfold pyInt
  split
  · exact Int.ceil_le.mpr (by simpa using h)
  · exact Int.floor_nonpos h

/-- Claim C1 (status: code_bug).  With both achievement counts present and a
zero total, `draw_game_info` does not treat the progress as 0: the division
`completed / total` raises `ZeroDivisionError`, failing the call.  With a
non-zero total the progress bar gets `completed / total`, and with an absent
count the strip is omitted. -/
theorem draw_game_info_zero_total_raises :
    draw_game_info_strip (some 3) (some 0) = AchStripResult.zeroDivisionError
    ∧ (AchStripResult.zeroDivisionError ≠ AchStripResult.strip 0)
    ∧ draw_game_info_strip (some 3) (some 5) = AchStripResult.strip (3 / 5)
    ∧ draw_game_info_strip (some 3) none = AchStripResult.omitted := by
  refine ⟨rfl, by decide, ?_, rfl⟩
  norm_num [draw_game_info_strip]

/-- Claim C9, counterexample.  `create_gradient_image` called with a
non-positive dimension does not produce a 1x1 transparent placeholder: the
call raises (modelled as `none`). -/
theorem horizontal_gradient_degenerate_cex :
    create_gradient_image_dims 0 5 = none
    ∧ ((none : Option (Int × Int)) ≠ some (1, 1)) := by
  exact ⟨by decide, by decide⟩

/-- Claim C9 (status: corrected).  `create_vertical_gradient_rect` answers
any non-positive dimension with the 1x1 transparent placeholder, and
`create_gradient_image` interpolates by column exactly as the vertical
constructor interpolates by row (symmetric), but has no degenerate guard:
any non-positive dimension makes it raise instead. -/
theorem gradient_degenerate_behavior :
    (∀ w h : Int, w ≤ 0 ∨ h ≤ 0 →
      create_vertical_gradient_rect_dims w h = GradRect.transparent1x1)
    ∧ (∀ w h : Int, 0 < w → 0 < h → create_gradient_image_dims w h = some (w, h))
    ∧ (∀ w h : Int, w ≤ 0 ∨ h ≤ 0 → create_gradient_image_dims w h = none)
    ∧ (∀ (a b : ℚ) (w h x y : Int),
        horizontalGradientPixel a b w h x y = verticalGradientPixel a b h w y x) := by
  refine ⟨?_, ?_, ?_, ?_⟩
  · intro w h hwh
    simp [create_vertical_gradient_rect_dims, hwh]
  · intro w h hw hh
    have : ¬ (w ≤ 0 ∨ h ≤ 0) := by omega
    simp [create_gradient_image_dims, this]
  · intro w h hwh
    simp [create_gradient_image_dims, hwh]
  · intro a b w h x y
    rfl

/-- Claim C4, counterexample.  At `progress = 2` the computed fill width is
`int(186 * 2) - 6 = 366`, not the `180 = 1 * 186 - 6` that clamping progress
into `[0, 1]` would give: `create_progress_bar` never clamps. -/
theorem progress_bar_no_clamp_cex :
    progressBarFillWidth 2 186 = 366
    ∧ min (max (2 : ℚ) 0) 1 * 186 - 6 = (180 : ℚ)
    ∧ ((366 : Int) ≠ 180) := by
  refine ⟨?_, by norm_num, by decide⟩
  norm_num [progressBarFillWidth, pyInt]

/-- Claim C4 (status: corrected).  The fill of the progress bar is the
vertical gradient rect of width `int(width * progress) - 6` and height
`height - 4`; progress is not clamped.  Any progress at most 0 yields the
degenerate 1x1 transparent placeholder (no visible fill), progress 1 yields
a fill of width `186 - 6 = 180`, and progress 2 yields width 366,
overflowing `width - 6`. -/
theorem progress_bar_fill_behavior :
    (∀ q : ℚ, q ≤ 0 → create_progress_bar_fill q 186 16 = GradRect.transparent1x1)
    ∧ create_progress_bar_fill 1 186 16 = GradRect.rect 180 12
    ∧ (186 : Int) - 6 = 180
    ∧ create_progress_bar_fill 2 186 16 = GradRect.rect 366 12 := by
  refine ⟨?_, ?_, by decide, ?_⟩
  · intro q hq
    have h1 : pyInt (((186 : Int) : ℚ) * q) ≤ 0 :=
      pyInt_nonpos (mul_nonpos_of_nonneg_of_nonpos (by norm_num) hq)
    have h2 : progressBarFillWidth q 186 ≤ 0 := by
      unfold progressBarFillWidth
      omega
    simp [create_progress_bar_fill, create_vertical_gradient_rect_dims, Or.inl h2]
  · norm_num [create_progress_bar_fill, create_vertical_gradient_rect_dims,
      progressBarFillWidth, pyInt]
  · norm_num [create_progress_bar_fill, create_vertical_gradient_rect_dims,
      progressBarFillWidth, pyInt]

/-- Claim C10, counterexample.  Rendering the roster does not leave the
caller's list in the same order: `draw_friends_status` sorts it in place, so
an input with an online record before an offline one comes back reordered. -/
theorem roster_input_mutated_cex :
    rosterPostData [⟨"A", "在线", 1, none⟩, ⟨"B", "离线", 0, none⟩]
      = [⟨"B", "离线", 0, none⟩, ⟨"A", "在线", 1, none⟩]
    ∧ ([(⟨"B", "离线", 0, none⟩ : FriendRec), ⟨"A", "在线", 1, none⟩]
        ≠ [⟨"A", "在线", 1, none⟩, ⟨"B", "离线", 0, none⟩]) := by
  exact ⟨by decide, by decide⟩

/-- Claim C10 (status: corrected).  The roster render mutates no record and
keeps exactly the input's elements, but reorders the caller's list in place:
afterwards it is sorted ascending by persona state. -/
theorem roster_render_preserves_elements (data : List FriendRec) :
    List.Perm (rosterPostData data) data ∧ List.Sorted psLe (rosterPostData data) :=
  ⟨List.perm_insertionSort _ _, List.sorted_insertionSort _ _⟩

/-- On an image with fewer than 10 pixels no threshold ever yields 10 vivid
pixels, so the recursion of `get_brightest_and_darkest_color` never
returns, whatever the call depth. -/
theorem bdc_small_none (pixels : List HSV) (hlt : pixels.length < 10) :
    ∀ (fuel : Nat) (thr hueThr : Int),
      get_brightest_and_darkest_color pixels thr hueThr fuel = none
  | 0, _, _ => rfl
  | fuel + 1, thr, hueThr => by
    have hv : (vividPixels pixels thr).length < 10 :=
      lt_of_le_of_lt (List.length_filter_le _ _) hlt
    simp only [get_brightest_and_darkest_color, if_pos hv]
    exact bdc_small_none pixels hlt fuel (thr - 10) 30

/-- A negative saturation threshold lets every pixel qualify as vivid. -/
theorem vividPixels_of_neg (pixels : List HSV) (thr : Int) (h : thr < 0) :
    vividPixels pixels thr = pixels :=
  List.filter_eq_self.mpr fun p _ =>
    decide_eq_true (lt_of_lt_of_le h (Int.ofNat_nonneg p.s))

/-- The brightest/darkest selection succeeds on any non-empty vivid set. -/
theorem selectPair_isSome (hueThr : Int) :
    ∀ vivid : List HSV, vivid ≠ [] → (selectPair hueThr vivid).isSome = true
  | [], h => absurd rfl h
  | _ :: _, _ => rfl

/-- With at least 10 pixels the recursion returns once the call depth lets
the threshold drop below zero: depth `fuel + 1` suffices whenever
`thr < 10 * fuel`. -/
theorem bdc_fueled (pixels : List HSV) (h10 : 10 ≤ pixels.length) :
    ∀ (fuel : Nat) (thr hueThr : Int), thr < 10 * (fuel : Int) →
      (get_brightest_and_darkest_color pixels thr hueThr (fuel + 1)).isSome = true
  | 0, thr, hueThr, hlt => by
    have hneg : thr < 0 := by omega
    have hv : vividPixels pixels thr = pixels := vividPixels_of_neg pixels thr hneg
    have hge : ¬ (vividPixels pixels thr).length < 10 := by rw [hv]; omega
    simp only [get_brightest_and_darkest_color, if_neg hge]
    refine selectPair_isSome hueThr _ ?_
    rw [hv]
    intro he
    rw [he] at h10
    simp at h10
  | fuel + 1, thr, hueThr, hlt => by
    by_cases hv : (vividPixels pixels thr).length < 10
    · have ih := bdc_fueled pixels h10 fuel (thr - 10) 30 (by push_cast at hlt ⊢; omega)
      simpa only [get_brightest_and_darkest_color, if_pos hv] using ih
    · simp only [get_brightest_and_darkest_color, if_neg hv]
      refine selectPair_isSome hueThr _ ?_
      intro he
      rw [he] at hv
      simp at hv

/-- Claim C3, counterexample.  On a perfectly uniform zero-saturation 1x1
image the threshold relaxation does not bottom out: even a negative
threshold yields only one vivid pixel, never the 10 the guard demands, so
`get_brightest_and_darkest_color` never returns (Python overflows the
recursion limit instead of returning a pair). -/
theorem vivid_extremes_small_image_diverges :
    ¬ BDCTerminates [⟨0, 0, 0⟩] 100 30 := by
  rintro ⟨fuel, hsome⟩
  rw [bdc_small_none [⟨0, 0, 0⟩] (by decide) fuel 100 30] at hsome
  simp at hsome

/-- Claim C3 (status: corrected).  On any image with at least 10 pixels the
recursion of `get_brightest_and_darkest_color` terminates and returns a pair
of colors: from the default threshold 100, a call depth of 12 (by which the
threshold has been relaxed below zero, making every pixel qualify)
suffices. -/
theorem vivid_extremes_terminates_of_ten_pixels (pixels : List HSV)
    (h10 : 10 ≤ pixels.length) :
    (get_brightest_and_darkest_color pixels 100 30 12).isSome = true
    ∧ BDCTerminates pixels 100 30 := by
  have h := bdc_fueled pixels h10 11 100 30 (by norm_num)
  exact ⟨h, 12, h⟩

/-- Witness for claim C3's theorem: a concrete 10-pixel zero-saturation
image on which the recursion provably returns. -/
theorem vivid_extremes_terminates_witness :
    10 ≤ ([⟨0, 0, 0⟩, ⟨1, 0, 1⟩, ⟨2, 0, 2⟩, ⟨3, 0, 3⟩, ⟨4, 0, 4⟩,
           ⟨5, 0, 5⟩, ⟨6, 0, 6⟩, ⟨7, 0, 7⟩, ⟨8, 0, 8⟩, ⟨9, 0, 9⟩] : List HSV).length
    ∧ (get_brightest_and_darkest_color
        [⟨0, 0, 0⟩, ⟨1, 0, 1⟩, ⟨2, 0, 2⟩, ⟨3, 0, 3⟩, ⟨4, 0, 4⟩,
         ⟨5, 0, 5⟩, ⟨6, 0, 6⟩, ⟨7, 0, 7⟩, ⟨8, 0, 8⟩, ⟨9, 0, 9⟩] 100 30 12).isSome = true :=
  ⟨by decide,
   (vivid_extremes_terminates_of_ten_pixels
      [⟨0, 0, 0⟩, ⟨1, 0, 1⟩, ⟨2, 0, 2⟩, ⟨3, 0, 3⟩, ⟨4, 0, 4⟩,
       ⟨5, 0, 5⟩, ⟨6, 0, 6⟩, ⟨7, 0, 7⟩, ⟨8, 0, 8⟩, ⟨9, 0, 9⟩] (by decide)).1⟩

/-- Invariant of the word-wrap loop: starting from an accumulated line whose
measured width is `lw` and with `n` lines already emitted (`n ≤ 3`), the loop
emits at most `4 - n` further lines, the emitted text (in order) is an
initial segment of the pending text, and every emitted line is non-empty and
ends because its width passed 640, because of a newline character, or
because the whole pending text was consumed. -/
theorem wrapEmit_spec (f : Char → ℚ) :
    ∀ (input line : List Char) (lw : ℚ) (n : Nat), lw = sumWidth f line → n ≤ 3 →
      (wrapEmit f input line lw n).length ≤ 4 - n
      ∧ (∃ rem, (wrapEmit f input line lw n).flatten ++ rem = line ++ input)
      ∧ ∀ l ∈ wrapEmit f input line lw n,
          l ≠ [] ∧ (640 < sumWidth f l ∨ l.getLast? = some '\n'
            ∨ (wrapEmit f input line lw n).flatten = line ++ input) := by
  intro input
  induction input with
  | nil =>
    intro line lw n _ _
    exact ⟨by simp [wrapEmit], ⟨line, by simp [wrapEmit]⟩, by simp [wrapEmit]⟩
  | cons c rest ih =>
    intro line lw n hlw hn
    have hsw : sumWidth f (line ++ [c]) = lw + f c := by
      simp [sumWidth, hlw]
    by_cases hcond : 640 < lw + f c ∨ rest = [] ∨ c = '\n'
    · by_cases h4 : 4 ≤ n + 1
      · have hres : wrapEmit f (c :: rest) line lw n = [line ++ [c]] := by
          simp only [wrapEmit]
          rw [if_pos hcond, if_pos h4]
        rw [hres]
        refine ⟨by simp; omega, ⟨rest, by simp⟩, ?_⟩
        intro l hl
        rw [List.mem_singleton] at hl
        subst hl
        refine ⟨by simp, ?_⟩
        rcases hcond with hw | hrest | hnl
        · exact Or.inl (by rw [hsw]; exact hw)
        · subst hrest
          exact Or.inr (Or.inr (by simp))
        · subst hnl
          exact Or.inr (Or.inl (by simp))
      · have hn1 : n + 1 ≤ 3 := by omega
        obtain ⟨ihlen, ⟨rem, hrem⟩, ihmem⟩ := ih [] 0 (n + 1) (by simp [sumWidth]) hn1
        simp only [List.nil_append] at hrem
        have hres : wrapEmit f (c :: rest) line lw n
            = (line ++ [c]) :: wrapEmit f rest [] 0 (n + 1) := by
          simp only [wrapEmit]
          rw [if_pos hcond, if_neg h4]
        rw [hres]
        refine ⟨by simp only [List.length_cons]; omega, ⟨rem, ?_⟩, ?_⟩
        · rw [List.flatten_cons, List.append_assoc, hrem]
          simp
        · intro l hl
          rcases List.mem_cons.mp hl with hl | hl
          · subst hl
            refine ⟨by simp, ?_⟩
            rcases hcond with hw | hrest | hnl
            · exact Or.inl (by rw [hsw]; exact hw)
            · subst hrest
              refine Or.inr (Or.inr ?_)
              simp [wrapEmit]
            · subst hnl
              exact Or.inr (Or.inl (by simp))
          · obtain ⟨hne, hd⟩ := ihmem l hl
            refine ⟨hne, ?_⟩
            rcases hd with hw | hnl | hj
            · exact Or.inl hw
            · exact Or.inr (Or.inl hnl)
            · refine Or.inr (Or.inr ?_)
              rw [List.flatten_cons, hj]
              simp
    · have hres : wrapEmit f (c :: rest) line lw n
          = wrapEmit f rest (line ++ [c]) (lw + f c) n := by
        simp only [wrapEmit]
        rw [if_neg hcond]
      obtain ⟨ihlen, ⟨rem, hrem⟩, ihmem⟩ := ih (line ++ [c]) (lw + f c) n hsw.symm hn
      rw [hres]
      refine ⟨ihlen, ⟨rem, by rw [hrem]; simp⟩, ?_⟩
      intro l hl
      obtain ⟨hne, hd⟩ := ihmem l hl
      refine ⟨hne, ?_⟩
      rcases hd with hw | hnl | hj
      · exact Or.inl hw
      · exact Or.inr (Or.inl hnl)
      · exact Or.inr (Or.inr (by rw [hj]; simp))

/-- Claim C6 (status: confirmed).  The biography wrap never emits more than
4 lines, the emitted lines in order form an initial segment of the input
(remaining text is silently dropped), and every emitted line is non-empty
and was emitted exactly at one of the three triggers: the accumulated
measured width exceeded 640, the line ends in an explicit newline, or the
whole input was consumed. -/
theorem biography_wrap_bounds (f : Char → ℚ) (desc : List Char) :
    (wrapLines f desc).length ≤ 4
    ∧ (∃ rem, (wrapLines f desc).flatten ++ rem = desc)
    ∧ ∀ l ∈ wrapLines f desc,
        l ≠ [] ∧ (640 < sumWidth f l ∨ l.getLast? = some '\n'
          ∨ (wrapLines f desc).flatten = desc) := by
  have h := wrapEmit_spec f desc [] 0 0 (by simp [sumWidth]) (by omega)
  simpa [wrapLines] using h

/-- The three classification predicates, characterized over persona states
0..6: gaming means an active state (1, 3 or 4) whose status text differs
from that state's generic label, offline means state 0, and online is
exactly the rest. -/
theorem roster_preds (d : FriendRec) (hps : d.personastate ≤ 6) :
    (gamingPred d = true ↔
      ((d.personastate = 1 ∨ d.personastate = 3 ∨ d.personastate = 4) ∧
        d.status ≠ genericLabel d.personastate))
    ∧ (offlinePred d = true ↔ d.personastate = 0)
    ∧ (onlinePred d = true ↔ (¬ gamingPred d = true ∧ ¬ offlinePred d = true)) := by
  obtain ⟨nm, st, ps, ni⟩ := d
  have hps' : ps ≤ 6 := hps
  simp only [gamingPred, onlinePred, offlinePred, genericLabel,
    Bool.or_eq_true, Bool.and_eq_true, beq_iff_eq, bne_iff_ne, ne_eq]
  interval_cases ps <;> simp [not_not]

/-- Claim C2 (status: confirmed).  Roster classification is a total
partition of persona states 0..6: a record is gaming exactly when its state
is Online(1)/Away(3)/Snooze(4) and its status text is not the generic label
of that state, offline exactly when its state is 0, online exactly
otherwise, and every input record lands in exactly one of the three
section lists. -/
theorem roster_classification_partition (d : FriendRec) (data : List FriendRec)
    (hps : d.personastate ≤ 6) (hd : d ∈ data) :
    (gamingPred d = true ↔
      ((d.personastate = 1 ∨ d.personastate = 3 ∨ d.personastate = 4) ∧
        d.status ≠ genericLabel d.personastate))
    ∧ (offlinePred d = true ↔ d.personastate = 0)
    ∧ (onlinePred d = true ↔ (¬ gamingPred d = true ∧ ¬ offlinePred d = true))
    ∧ ((d ∈ gaming_data data ∧ d ∉ online_data data ∧ d ∉ offline_data data)
      ∨ (d ∉ gaming_data data ∧ d ∈ online_data data ∧ d ∉ offline_data data)
      ∨ (d ∉ gaming_data data ∧ d ∉ online_data data ∧ d ∈ offline_data data)) := by
  obtain ⟨hg, ho, hon⟩ := roster_preds d hps
  refine ⟨hg, ho, hon, ?_⟩
  have hmem : d ∈ rosterPostData data := by
    simpa [rosterPostData] using hd
  simp only [gaming_data, online_data, offline_data, List.mem_filter, hmem, true_and]
  by_cases hgp : gamingPred d = true
  · refine Or.inl ⟨hgp, ?_, ?_⟩
    · intro honl
      exact (hon.mp honl).1 hgp
    · intro hofl
      have h0 := ho.mp hofl
      rcases (hg.mp hgp).1 with h | h | h <;> omega
  · by_cases hop : offlinePred d = true
    · refine Or.inr (Or.inr ⟨hgp, ?_, hop⟩)
      intro honl
      exact (hon.mp honl).2 hop
    · exact Or.inr (Or.inl ⟨hgp, hon.mpr ⟨hgp, hop⟩, hop⟩)

/-- Witness for claim C2's theorem: a concrete gaming record lands in the
gaming section and in no other. -/
theorem roster_classification_partition_witness :
    (⟨"W", "Dota 2", 1, none⟩ : FriendRec).personastate ≤ 6
    ∧ (((⟨"W", "Dota 2", 1, none⟩ : FriendRec) ∈ gaming_data [⟨"W", "Dota 2", 1, none⟩]
          ∧ (⟨"W", "Dota 2", 1, none⟩ : FriendRec) ∉ online_data [⟨"W", "Dota 2", 1, none⟩]
          ∧ (⟨"W", "Dota 2", 1, none⟩ : FriendRec) ∉ offline_data [⟨"W", "Dota 2", 1, none⟩])
      ∨ ((⟨"W", "Dota 2", 1, none⟩ : FriendRec) ∉ gaming_data [⟨"W", "Dota 2", 1, none⟩]
          ∧ (⟨"W", "Dota 2", 1, none⟩ : FriendRec) ∈ online_data [⟨"W", "Dota 2", 1, none⟩]
          ∧ (⟨"W", "Dota 2", 1, none⟩ : FriendRec) ∉ offline_data [⟨"W", "Dota 2", 1, none⟩])
      ∨ ((⟨"W", "Dota 2", 1, none⟩ : FriendRec) ∉ gaming_data [⟨"W", "Dota 2", 1, none⟩]
          ∧ (⟨"W", "Dota 2", 1, none⟩ : FriendRec) ∉ online_data [⟨"W", "Dota 2", 1, none⟩]
          ∧ (⟨"W", "Dota 2", 1, none⟩ : FriendRec) ∈ offline_data [⟨"W", "Dota 2", 1, none⟩])) :=
  ⟨by decide,
   (roster_classification_partition ⟨"W", "Dota 2", 1, none⟩ [⟨"W", "Dota 2", 1, none⟩]
      (by decide) (by decide)).2.2.2⟩

/-- Folding height accumulation is the sum of the per-image heights. -/
theorem foldl_add_height (l : List (SectionKind × List FriendRec)) :
    ∀ a : Nat, l.foldl (fun h s => h + sectionImgHeight s.2) a
      = a + (l.map (fun s => sectionImgHeight s.2)).sum := by
  induction l with
  | nil => intro a; simp
  | cons x xs ih => intro a; simp [ih, Nat.add_assoc]

/-- The paste loop draws a separator at every index but the last one. -/
theorem range_filter_ne_last (n : Nat) :
    ((List.range n).filter (fun i => i != n - 1)).length = n - 1 := by
  cases n with
  | zero => rfl
  | succ m =>
    rw [List.range_succ, List.filter_append]
    have h1 : (List.range m).filter (fun i => i != (m + 1) - 1) = List.range m :=
      List.filter_eq_self.mpr fun a ha => by
        have := List.mem_range.mp ha
        simp only [bne_iff_ne, ne_eq]
        omega
    have h2 : [m].filter (fun i => i != (m + 1) - 1) = [] := by simp
    rw [h1, h2]
    simp

/-- Claim C7 (status: confirmed).  The composed roster stacks exactly the
non-empty sections in the order gaming, online, offline; its canvas height
is the parent header (120) plus the search divider (50) plus the sum of the
section image heights; the paste loop draws one separator per adjacent pair
of sections (`n - 1` separators for `n` sections); and the concrete roster
with one gaming, one generic-online and one offline record yields the three
sections with exactly 2 separators. -/
theorem roster_layout_sections (data : List FriendRec) :
    List.Sublist ((rosterStatusImages data).map Prod.fst)
        [SectionKind.gaming, SectionKind.online, SectionKind.offline]
    ∧ (SectionKind.gaming ∈ (rosterStatusImages data).map Prod.fst ↔ gaming_data data ≠ [])
    ∧ (SectionKind.online ∈ (rosterStatusImages data).map Prod.fst ↔ online_data data ≠ [])
    ∧ (SectionKind.offline ∈ (rosterStatusImages data).map Prod.fst ↔ offline_data data ≠ [])
    ∧ rosterCanvasHeight data
        = 120 + 50 + ((rosterStatusImages data).map (fun s => sectionImgHeight s.2)).sum
    ∧ rosterSeparatorCount data = (rosterStatusImages data).length - 1
    ∧ (rosterStatusImages [⟨"G", "Counter-Strike", 1, none⟩, ⟨"O", "在线", 1, none⟩,
        ⟨"F", "离线", 0, none⟩]).map Prod.fst
        = [SectionKind.gaming, SectionKind.online, SectionKind.offline]
    ∧ rosterSeparatorCount [⟨"G", "Counter-Strike", 1, none⟩, ⟨"O", "在线", 1, none⟩,
        ⟨"F", "离线", 0, none⟩] = 2 := by
  refine ⟨?_, ?_, ?_, ?_, foldl_add_height _ _, range_filter_ne_last _, by decide, by decide⟩ <;>
    (by_cases hg : gaming_data data = [] <;> by_cases ho : online_data data = [] <;>
      by_cases hf : offline_data data = [] <;>
      simp [rosterStatusImages, hg, ho, hf])

/-- Claim C8 (status: confirmed).  The online section is sorted by persona
state with Away(3) remapped to key 7 — every non-away member keeps its state
as key, below 7, so away members sort last — and the gaming section is
sorted lexically by status text; both sorts permute their section's
members. -/
theorem roster_section_ordering (data : List FriendRec) :
    List.Sorted onlineKeyLe (online_data_sorted data)
    ∧ List.Perm (online_data_sorted data) (online_data data)
    ∧ (∀ d ∈ online_data data,
        (d.personastate = 3 → onlineKey d = 7)
        ∧ (d.personastate ≠ 3 → onlineKey d = d.personastate ∧ onlineKey d < 7))
    ∧ List.Sorted statusLe (gaming_data_sorted data)
    ∧ List.Perm (gaming_data_sorted data) (gaming_data data) := by
  refine ⟨List.sorted_insertionSort _ _, List.perm_insertionSort _ _, ?_,
    List.sorted_insertionSort _ _, List.perm_insertionSort _ _⟩
  intro d hd
  have hp : onlinePred d = true := (List.mem_filter.mp hd).2
  constructor
  · intro h3
    simp [onlineKey, h3]
  · intro h3
    have hb : (d.personastate == 3) = false := by simpa using h3
    have hk : onlineKey d = d.personastate := by simp [onlineKey, hb]
    refine ⟨hk, ?_⟩
    rw [hk]
    simp only [onlinePred, Bool.or_eq_true, Bool.and_eq_true, beq_iff_eq] at hp
    rcases hp with ((⟨h, _⟩ | ⟨h, _⟩) | ⟨h, _⟩) | ((h | h) | h) <;> omega

/-- Claim C5, counterexample.  On a 4x2 image tiled 1x1 the painted blob is
the ellipse inscribed in the whole 4x2 tile (its bounding box is 4 wide and
2 tall), not the circle of diameter 2 centered in the tile that the
specification describes (bounding box 2 wide, 2 tall). -/
theorem recolor_nonsquare_tile_cex :
    (recolor_image ⟨4, 2, fun _ _ => (0, 0, 0)⟩ 1 1).blobs = [⟨1, 0, 4, 2, (0, 0, 0)⟩]
    ∧ specCircleBlobs ⟨4, 2, fun _ _ => (0, 0, 0)⟩ 1 1 = [⟨1, 0, 2, 2, (0, 0, 0)⟩]
    ∧ Blob.toQ ⟨1, 0, 4, 2, (0, 0, 0)⟩ ≠ (⟨1, 0, 2, 2, (0, 0, 0)⟩ : BlobQ) := by
  refine ⟨by decide, ?_, ?_⟩
  · have hrange : List.range (1 * 1) = [0] := by decide
    have hcolor : get_average_color ((⟨4, 2, fun _ _ => (0, 0, 0)⟩ : Img).crop 0 0 4 2)
        = (0, 0, 0) := by decide
    simp only [specCircleBlobs, hrange, List.map_cons, List.map_nil]
    norm_num [BlobQ.mk.injEq]
    exact hcolor
  · intro h
    exact absurd (congrArg BlobQ.width h) (by norm_num [Blob.toQ])

/-- Claim C5 (status: corrected).  `recolor_image` keeps the input's
dimensions and pre-fills the canvas with the whole-image average color, but
each tile gets a filled ellipse inscribed in a tile-sized box pasted at the
tile center minus half the shorter side; this coincides with the
specification's centered circle of diameter equal to the tile's shorter side
exactly when the tiles are square. -/
theorem recolor_dims_and_square_tiles (img : Img) (rows cols : Nat)
    (_hrows : 1 ≤ rows) (_hcols : 1 ≤ cols)
    (hsq : img.width / cols = img.height / rows) :
    (recolor_image img rows cols).width = img.width
    ∧ (recolor_image img rows cols).height = img.height
    ∧ (recolor_image img rows cols).background = get_average_color img
    ∧ (recolor_image img rows cols).blobs.map Blob.toQ = specCircleBlobs img rows cols := by
  refine ⟨rfl, rfl, rfl, ?_⟩
  simp only [recolor_image, specCircleBlobs, List.map_map]
  refine List.map_congr_left fun i _ => ?_
  simp only [Function.comp_apply, Blob.toQ]
  rw [← hsq, Nat.min_self]
  congr 1 <;>
    first
      | rfl
      | exact Int.cast_natCast _
      | (rw [add_sub_cancel_right, add_sub_cancel_right]; exact Int.cast_natCast _)

/-- Witness for claim C5's theorem: on a concrete 4x4 image tiled 2x2 the
painted blobs coincide with the specification's circles and the dimensions
are preserved. -/
theorem recolor_dims_and_square_tiles_witness :
    ((⟨4, 4, fun _ _ => (0, 0, 0)⟩ : Img).width / 2
        = (⟨4, 4, fun _ _ => (0, 0, 0)⟩ : Img).height / 2)
    ∧ (recolor_image ⟨4, 4, fun _ _ => (0, 0, 0)⟩ 2 2).width = 4
    ∧ (recolor_image ⟨4, 4, fun _ _ => (0, 0, 0)⟩ 2 2).blobs.map Blob.toQ
        = specCircleBlobs ⟨4, 4, fun _ _ => (0, 0, 0)⟩ 2 2 :=
  ⟨by decide,
   (recolor_dims_and_square_tiles ⟨4, 4, fun _ _ => (0, 0, 0)⟩ 2 2
      (by decide) (by decide) (by decide)).1,
   (recolor_dims_and_square_tiles ⟨4, 4, fun _ _ => (0, 0, 0)⟩ 2 2
      (by decide) (by decide) (by decide)).2.2.2⟩
